import Mathlib

/-!
Verification of `yet-another-imgs2pdf` (src/src/main.rs) against its
natural-language specification.

Shallow embedding notes:
* Pixel dimensions and physical page sizes are modelled over the exact
  rationals `ℚ`; the source uses `u32` pixels and `f64` millimetres, and all
  arithmetic relevant to the claims (`w * 25.4 / dpi`, resize ratios) is
  carried out exactly here.
* Image decoding (`image_crate::open`) is an external effect: it is passed in
  as a function `dec : String → Except String Img` mapping a path to either a
  decoded image or the error message of the underlying `ImageError`.
* Serialisation (`PdfDocumentReference::save`) and `File::create` are external
  I/O; their success is a boolean parameter of `runMain`.
-/

namespace ImgsToPdf

/-- A decoded (or resized) pixel buffer: just its dimensions, which is all the
page-geometry computation reads (`img.dimensions()` in the source). -/
structure Img where
  width : ℚ
  height : ℚ
  deriving DecidableEq, Repr

/-- One page of the output document: its physical size in millimetres and the
image placed on its single layer (`none` would be a page with no image, which
the claims require never to occur). -/
structure Page where
  widthMm : ℚ
  heightMm : ℚ
  image : Option Img
  deriving DecidableEq, Repr

/-- `const INCH_PER_MM: f64 = 25.4;` (src line 16; the value is the number of
millimetres per inch, despite the source's name). -/
def INCH_PER_MM : ℚ := 254 / 10

/-- Modelled from the spec: the resize step lives in the third-party `image`
crate (re-exported by `printpdf` as `image_crate`), whose code is not part of
this repository. The spec's contract: scale the buffer to fit within the
configured `(scale-width, scale-height)` bounding box, preserving aspect
ratio. Both dimensions are scaled by the one common factor
`min (bw / w) (bh / h)`. -/
def resizeFit (img : Img) (wh : ℕ × ℕ) : Img :=
  let r := min ((wh.1 : ℚ) / img.width) ((wh.2 : ℚ) / img.height)
  { width := img.width * r, height := img.height * r }

/-- Page construction from the resized image (src lines 40-53): physical size
`Mm((dim as f64 * INCH_PER_MM) / dpi)` on each axis, and the image placed on
the page's layer. -/
def mkPage (dpi : ℚ) (img : Img) : Page :=
  { widthMm := img.width * INCH_PER_MM / dpi
    heightMm := img.height * INCH_PER_MM / dpi
    image := some img }

/-- `PDFMerger::append_image_page` (src lines 28-55): decode the file at the
given path (`image_crate::open(image)?` — a decode failure returns early via
`?` with the document untouched), resize it, and append one page of the
computed physical size carrying the resized image. The state of the document
is the list of its pages; the returned `Option String` is the error of the
`ImageResult`, `none` on success. The layer name argument (always `""` at the
call site) carries no information and is omitted. -/
def appendImagePage (dec : String → Except String Img) (dpi : ℚ) (wh : ℕ × ℕ)
    (doc : List Page) (n : String) : List Page × Option String :=
  match dec n with
  | Except.error e => (doc, some e)
  | Except.ok img0 => (doc ++ [mkPage dpi (resizeFit img0 wh)], none)

/-- The diagnostic printed when an image is skipped
(`println!("Skipping `{}` because: {}", n.display(), e)`, src line 176). -/
def skipMsg (n e : String) : String :=
  "Skipping `" ++ n ++ "` because: " ++ e

/-- The page-assembly loop of `main` (src lines 174-180): for each path in
order, attempt `append_image_page`; on failure print the skip diagnostic and
continue. Returns the final document and the list of skip diagnostics in
emission order. The per-iteration progress line
(`print!("Processing image {}/{}\x7br", ...)`) carries no state and is not
modelled. -/
def mainLoop (dec : String → Except String Img) (dpi : ℚ) (wh : ℕ × ℕ) :
    List String → List Page → List Page × List String
  | [], doc => (doc, [])
  | n :: rest, doc =>
    match appendImagePage dec dpi wh doc n with
    | (doc2, none) => mainLoop dec dpi wh rest doc2
    | (doc2, some e) =>
      let r := mainLoop dec dpi wh rest doc2
      (r.1, skipMsg n e :: r.2)

/-- Outcome of a run of `main` past argument parsing: `ok doc log` means the
loop finished, `p.save(File::create(..))` succeeded, the success message was
printed and `main` returned `Ok(())` (process exit code 0); `ioError` means
creating or saving the output file failed and `main` returned the error. -/
inductive RunResult where
  | ok (doc : List Page) (log : List String) : RunResult
  | ioError : RunResult
  deriving DecidableEq, Repr

/-- Whether the run exited successfully. -/
def RunResult.isOk : RunResult → Bool
  | RunResult.ok _ _ => true
  | RunResult.ioError => false

/-- The tail of `main` (src lines 172-188): run the assembly loop over the
resolved input sequence starting from the empty document, then write the
document once; `saveOk` abstracts the success of `File::create` + `save`.
Decode failures never influence the exit status. -/
def runMain (dec : String → Except String Img) (dpi : ℚ) (wh : ℕ × ℕ)
    (imgs : List String) (saveOk : Bool) : RunResult :=
  let r := mainLoop dec dpi wh imgs []
  if saveOk then RunResult.ok r.1 r.2 else RunResult.ioError

/-- The page contributed by path `n`, if any: statement-side abbreviation for
what one iteration of the loop appends. -/
def pageOf (dec : String → Except String Img) (dpi : ℚ) (wh : ℕ × ℕ)
    (n : String) : Option Page :=
  match dec n with
  | Except.ok img => some (mkPage dpi (resizeFit img wh))
  | Except.error _ => none

/-- The diagnostic contributed by path `n`, if any. -/
def logOf (dec : String → Except String Img) (n : String) : Option String :=
  match dec n with
  | Except.ok _ => none
  | Except.error e => some (skipMsg n e)

/-- Whether decoding the file at path `n` succeeds. -/
def decodeOk (dec : String → Except String Img) (n : String) : Bool :=
  match dec n with
  | Except.ok _ => true
  | Except.error _ => false

/-- The dpi argument check (src lines 127-133):
`matches.value_of("dpi").unwrap().parse::<f64>()` succeeds or the program
prints `Value <dpi> could not be parsed as a float` and exits 1. The parse
itself is external; its outcome is the argument (`none` = parse failure).
The only inspection the source performs on the parsed value is the `match`
on the parse result — the numeric value is never examined. -/
def dpiCheck (parsed : Option ℚ) : Except String ℚ :=
  match parsed with
  | some d => Except.ok d
  | none => Except.error "Value <dpi> could not be parsed as a float"

/-- Models `matches.value_of("auto-sort")` (src line 168). The `auto-sort`
argument is declared with `takes_value(false)` (src lines 106-111), i.e. it is
a flag: under clap v3 a flag stores no value when matched, so
`ArgMatches::value_of` returns `None` whether or not `-s`/`--auto-sort` was
passed on the command line. -/
def autoSortValue (_sPassed : Bool) : Option String := none

/-- Lexicographic order on path strings, as order on their character lists. -/
def pathLe (a b : String) : Prop := a.data < b.data ∨ a = b

instance (a b : String) : Decidable (pathLe a b) := by
  unfold pathLe; infer_instance

/-- Lexicographic insertion of a path into a sorted list of paths. -/
def insertSorted (s : String) : List String → List String
  | [] => [s]
  | x :: xs => if pathLe s x then s :: x :: xs else x :: insertSorted s xs

/-- Lexicographic sort of the resolved paths, modelling `imgs_iter.sort()`
(src line 169). -/
def sortPaths : List String → List String
  | [] => []
  | x :: xs => insertSorted x (sortPaths xs)

/-- The auto-sort step of `main` (src lines 168-170):
`if matches.value_of("auto-sort").is_some() { imgs_iter.sort(); }`, applied to
the resolved input sequence. `sPassed` records whether the user passed the
`-s`/`--auto-sort` flag. -/
def resolveInputs (sPassed : Bool) (imgs : List String) : List String :=
  if (autoSortValue sPassed).isSome then sortPaths imgs else imgs

/-- The characters of the recognized document-file extension, `"pdf"`. -/
def pdfExt : List Char := ['p', 'd', 'f']

/-- The final path component of a path (the text after the last `/`),
as a character list. -/
def lastSeg (p : List Char) : List Char :=
  (p.reverse.takeWhile (fun c => c != '/')).reverse

/-- Whether the path has a file name, per `Path::file_name`: the last
component must be nonempty and not the special components `.` or `..`.
(Paths with a trailing `/` or `/.`, which Rust normalises away, are outside
this model; no regular file can be created at such a path anyway.) -/
def hasFileName (p : List Char) : Bool :=
  lastSeg p != [] && lastSeg p != ['.'] && lastSeg p != ['.', '.']

/-- The extension of a file name `f`, per `Path::extension`: the text after
the last `.`; `none` when there is no `.` or when the only `.` is the leading
character (hidden files like `.gitignore` have no extension). -/
def extCand (f : List Char) : Option (List Char) :=
  match f.reverse.dropWhile (fun c => c != '.') with
  | [] => none
  | _ :: stemRev =>
    if stemRev = [] then none
    else some ((f.reverse.takeWhile (fun c => c != '.')).reverse)

/-- `Path::extension` of a whole path (src line 149 reads
`out_path.extension()`). -/
def extensionL (p : List Char) : Option (List Char) :=
  if hasFileName p then extCand (lastSeg p) else none

/-- `PathBuf::set_extension` (src line 150): a no-op returning `false` when
there is no file name; otherwise the current extension (with its `.`) is
removed and `.` followed by the new extension is appended. -/
def setExtensionL (p ext : List Char) : List Char :=
  if hasFileName p then
    (match extensionL p with
     | none => p
     | some e => p.take (p.length - (e.length + 1))) ++ '.' :: ext
  else p

/-- The out-path fixup of `main` (src lines 148-151):
`if out_path.extension() != Some(OsStr::new("pdf")) { out_path.set_extension("pdf"); }`.
The comparison is exact equality of the extension with the lowercase string
`pdf`. -/
def fixOut (p : List Char) : List Char :=
  if extensionL p = some pdfExt then p else setExtensionL p pdfExt

/-- A concrete decoder for witnesses: `a` decodes to a 4×3 buffer, `c` to a
2×1 buffer, everything else fails with message `bad`. -/
def cdec : String → Except String Img := fun n =>
  if n = "a" then Except.ok ⟨4, 3⟩
  else if n = "c" then Except.ok ⟨2, 1⟩
  else Except.error "bad"

/-- A concrete decoder for witnesses that fails on every path. -/
def faildec : String → Except String Img := fun _ => Except.error "bad"

/-- Characterisation of the assembly loop: starting from document `doc`, the
loop returns `doc` extended by one page per successfully decoded path, in
input order, together with one skip diagnostic per failing path, in input
order. -/
theorem mainLoop_eq (dec : String → Except String Img) (dpi : ℚ) (wh : ℕ × ℕ) :
    ∀ (imgs : List String) (doc : List Page),
      mainLoop dec dpi wh imgs doc =
        (doc ++ imgs.filterMap (pageOf dec dpi wh), imgs.filterMap (logOf dec))
  | [], doc => by simp [mainLoop]
  | n :: rest, doc => by
    cases h : dec n with
    | ok img =>
      simp [mainLoop, appendImagePage, h, pageOf, logOf,
        mainLoop_eq dec dpi wh rest (doc ++ [mkPage dpi (resizeFit img wh)])]
    | error e =>
      simp [mainLoop, appendImagePage, h, pageOf, logOf,
        mainLoop_eq dec dpi wh rest doc]

/-- Claim C1: for every successfully decoded and resized image, the page the
loop appends for it carries that resized image and has physical width
`w * 25.4 / dpi` millimetres and physical height `h * 25.4 / dpi` millimetres,
where `(w, h)` are the resized pixel dimensions — the conversion constant
`25.4 = 254/10` is applied identically to both axes. -/
theorem page_size_formula (dec : String → Except String Img) (dpi : ℚ)
    (wh : ℕ × ℕ) (imgs : List String) (pg : Page)
    (hpg : pg ∈ (mainLoop dec dpi wh imgs []).1) :
    ∃ img : Img, pg.image = some img ∧
      pg.widthMm = img.width * (254 / 10) / dpi ∧
      pg.heightMm = img.height * (254 / 10) / dpi := by
  rw [mainLoop_eq] at hpg
  simp only [List.nil_append, List.mem_filterMap] at hpg
  obtain ⟨n, -, hn⟩ := hpg
  unfold pageOf at hn
  cases h : dec n with
  | ok img =>
    rw [h] at hn
    cases hn
    exact ⟨resizeFit img wh, rfl, rfl, rfl⟩
  | error e => rw [h] at hn; cases hn

/-- Witness for `page_size_formula` at a concrete run: one 8×6 image at DPI
100 with the default 720×1280 bounds. -/
theorem page_size_formula_witness :
    (mkPage 100 (resizeFit ⟨8, 6⟩ (720, 1280))) ∈
        (mainLoop (fun _ => Except.ok ⟨8, 6⟩) 100 (720, 1280) ["a"] []).1 ∧
    ∃ img : Img, (mkPage 100 (resizeFit ⟨8, 6⟩ (720, 1280))).image = some img ∧
      (mkPage 100 (resizeFit ⟨8, 6⟩ (720, 1280))).widthMm = img.width * (254 / 10) / 100 ∧
      (mkPage 100 (resizeFit ⟨8, 6⟩ (720, 1280))).heightMm = img.height * (254 / 10) / 100 :=
  ⟨by simp [mainLoop, appendImagePage],
    page_size_formula (fun _ => Except.ok ⟨8, 6⟩) 100 (720, 1280) ["a"] _
      (by simp [mainLoop, appendImagePage])⟩

/-- Claim C2: after the assembly loop finishes, the document contains exactly
one page per successfully processed image, and the pages appear in the same
relative order as the resolved input sequence (the loop never reorders the
document). -/
theorem pages_one_per_success_in_order (dec : String → Except String Img)
    (dpi : ℚ) (wh : ℕ × ℕ) (imgs : List String) :
    (mainLoop dec dpi wh imgs []).1 = imgs.filterMap (pageOf dec dpi wh) ∧
    (mainLoop dec dpi wh imgs []).1.length = (imgs.filter (decodeOk dec)).length := by
  rw [mainLoop_eq]
  simp only [List.nil_append, true_and]
  induction imgs with
  | nil => rfl
  | cons n rest ih =>
    cases hd : dec n <;>
      simp [List.filterMap_cons, List.filter_cons, pageOf, decodeOk, hd, ih]

/-- Claim C3 (tolerant failure mode): when the 2nd of 3 input paths fails to
decode, its failure is reported by a diagnostic carrying that path, the image
is skipped, processing continues, the final document has exactly the two
pages of the 1st and 3rd images in that order, and the run still finishes
with `RunResult.ok` (exit code 0, given the final save succeeds). -/
theorem tolerant_skip_three_paths (dec : String → Except String Img) (dpi : ℚ)
    (wh : ℕ × ℕ) (p1 p2 p3 : String) (i1 i3 : Img) (e : String)
    (h1 : dec p1 = Except.ok i1) (h2 : dec p2 = Except.error e)
    (h3 : dec p3 = Except.ok i3) :
    runMain dec dpi wh [p1, p2, p3] true =
      RunResult.ok [mkPage dpi (resizeFit i1 wh), mkPage dpi (resizeFit i3 wh)]
        [skipMsg p2 e] := by
  unfold runMain
  rw [mainLoop_eq]
  simp [pageOf, logOf, h1, h2, h3]

/-- Witness for `tolerant_skip_three_paths`: the concrete decoder `cdec`
succeeds on `a` and `c` and fails on `b`. -/
theorem tolerant_skip_three_paths_witness :
    cdec "a" = Except.ok ⟨4, 3⟩ ∧ cdec "b" = Except.error "bad" ∧
    runMain cdec 100 (720, 1280) ["a", "b", "c"] true =
      RunResult.ok
        [mkPage 100 (resizeFit ⟨4, 3⟩ (720, 1280)), mkPage 100 (resizeFit ⟨2, 1⟩ (720, 1280))]
        [skipMsg "b" "bad"] :=
  ⟨rfl, rfl,
    tolerant_skip_three_paths cdec 100 (720, 1280) "a" "b" "c" ⟨4, 3⟩ ⟨2, 1⟩ "bad" rfl rfl rfl⟩

/-- Claim C4: if `append_image_page` returns an error (the decode `?` fails),
the document is unchanged by the call — no page, in particular no page
without an image, is appended. -/
theorem append_error_leaves_doc_unchanged (dec : String → Except String Img)
    (dpi : ℚ) (wh : ℕ × ℕ) (doc : List Page) (n : String)
    (h : (appendImagePage dec dpi wh doc n).2.isSome = true) :
    (appendImagePage dec dpi wh doc n).1 = doc := by
  cases hd : dec n with
  | ok img => simp [appendImagePage, hd] at h
  | error e => simp [appendImagePage, hd]

/-- Witness for `append_error_leaves_doc_unchanged`: a failing decode on the
empty document. -/
theorem append_error_leaves_doc_unchanged_witness :
    (appendImagePage faildec 96 (720, 1280) [] "x").2.isSome = true ∧
    (appendImagePage faildec 96 (720, 1280) [] "x").1 = [] :=
  ⟨rfl, append_error_leaves_doc_unchanged faildec 96 (720, 1280) [] "x" rfl⟩

/-- Claim C9: when every listed image fails to decode (in particular when the
input sequence is empty), the run still reaches the save with a zero-page
document and finishes with `RunResult.ok` — writing the empty document and
printing the success message rather than treating it as an error. -/
theorem all_failed_zero_pages_success (dec : String → Except String Img)
    (dpi : ℚ) (wh : ℕ × ℕ) (imgs : List String)
    (h : ∀ n ∈ imgs, decodeOk dec n = false) :
    runMain dec dpi wh imgs true = RunResult.ok [] (imgs.filterMap (logOf dec)) := by
  unfold runMain
  rw [mainLoop_eq]
  simp only [List.nil_append, if_true]
  have hnil : imgs.filterMap (pageOf dec dpi wh) = [] := by
    rw [List.filterMap_eq_nil_iff]
    intro n hn
    have hfail := h n hn
    unfold decodeOk at hfail
    unfold pageOf
    cases hd : dec n with
    | ok img => rw [hd] at hfail; simp at hfail
    | error e => rfl
  rw [hnil]

/-- Witness for `all_failed_zero_pages_success`: a single path whose decode
fails. -/
theorem all_failed_zero_pages_success_witness :
    (∀ n ∈ ["x"], decodeOk faildec n = false) ∧
    runMain faildec 96 (720, 1280) ["x"] true =
      RunResult.ok [] (["x"].filterMap (logOf faildec)) :=
  ⟨by intro n _; rfl,
    all_failed_zero_pages_success faildec 96 (720, 1280) ["x"] (by intro n _; rfl)⟩

/-- Claim C5 (code evaluation at the failing input): because `auto-sort` is
declared `takes_value(false)`, `matches.value_of("auto-sort")` is always
`None`, so the guard on src line 168 is never taken and the input sequence is
left unsorted even when the flag is passed — here `["b", "a"]` with the flag
set stays `["b", "a"]`, while the sort the claim promises would produce
`["a", "b"]`. -/
theorem autosort_flag_never_sorts :
    resolveInputs true ["b", "a"] = ["b", "a"] ∧
    resolveInputs false ["b", "a"] = ["b", "a"] ∧
    sortPaths ["b", "a"] = ["a", "b"] :=
  ⟨rfl, rfl, by decide⟩

/-- Claim C6 (counterexample): a DPI of zero is not rejected — `"0"` parses as
a float, so the configuration check of src lines 127-133 accepts it
(`Except.ok 0`), image processing proceeds, and the run still reaches a
successful save of the output file. -/
theorem dpi_zero_accepted :
    dpiCheck (some 0) = Except.ok 0 ∧
    dpiCheck (some (-1)) = Except.ok (-1) ∧
    (runMain (fun _ => Except.ok ⟨8, 6⟩) 0 (720, 1280) ["a"] true).isOk = true :=
  ⟨rfl, rfl, rfl⟩

/-- Claim C6 (amended): the only DPI configuration error the program reports
before processing is a parse failure; every string that parses as a float —
including `0` and negative values — is accepted, and the run proceeds. -/
theorem dpi_check_parse_only :
    (∀ d : ℚ, dpiCheck (some d) = Except.ok d) ∧
    dpiCheck none = Except.error "Value <dpi> could not be parsed as a float" :=
  ⟨fun _ => rfl, rfl⟩

/-- Claim C7 (resize contract, modelled from the spec): for every decoded
image with positive dimensions, the resized buffer fits within the configured
`(scale-width, scale-height)` bounding box and the aspect ratio is preserved
(`w' * h = h' * w`, i.e. `w' / h' = w / h`). -/
theorem resize_bounds_and_aspect (img : Img) (bw bh : ℕ)
    (hw : 0 < img.width) (hh : 0 < img.height) :
    (resizeFit img (bw, bh)).width ≤ (bw : ℚ) ∧
    (resizeFit img (bw, bh)).height ≤ (bh : ℚ) ∧
    (resizeFit img (bw, bh)).width * img.height =
      (resizeFit img (bw, bh)).height * img.width := by
  unfold resizeFit
  refine ⟨?_, ?_, by ring⟩
  · calc img.width * min ((bw : ℚ) / img.width) ((bh : ℚ) / img.height)
        ≤ img.width * ((bw : ℚ) / img.width) :=
          mul_le_mul_of_nonneg_left (min_le_left _ _) (le_of_lt hw)
      _ = (bw : ℚ) := by rw [mul_comm]; exact div_mul_cancel₀ _ (ne_of_gt hw)
  · calc img.height * min ((bw : ℚ) / img.width) ((bh : ℚ) / img.height)
        ≤ img.height * ((bh : ℚ) / img.height) :=
          mul_le_mul_of_nonneg_left (min_le_right _ _) (le_of_lt hh)
      _ = (bh : ℚ) := by rw [mul_comm]; exact div_mul_cancel₀ _ (ne_of_gt hh)

/-- Witness for `resize_bounds_and_aspect`: an 8×6 image against the default
720×1280 box. -/
theorem resize_bounds_and_aspect_witness :
    (0 : ℚ) < (Img.mk 8 6).width ∧
    ((resizeFit ⟨8, 6⟩ (720, 1280)).width ≤ ((720 : ℕ) : ℚ) ∧
      (resizeFit ⟨8, 6⟩ (720, 1280)).height ≤ ((1280 : ℕ) : ℚ) ∧
      (resizeFit ⟨8, 6⟩ (720, 1280)).width * (Img.mk 8 6).height =
        (resizeFit ⟨8, 6⟩ (720, 1280)).height * (Img.mk 8 6).width) :=
  ⟨by norm_num, resize_bounds_and_aspect ⟨8, 6⟩ 720 1280 (by norm_num) (by norm_num)⟩

/-- The first element not dropped by `dropWhile (· != ch)` is `ch` itself. -/
theorem dropWhile_bne_head (ch : Char) :
    ∀ (l : List Char) (c : Char) (t : List Char),
      l.dropWhile (fun x => x != ch) = c :: t → c = ch
  | [], c, t, h => by simp [List.dropWhile] at h
  | a :: l, c, t, h => by
    by_cases ha : a = ch
    · subst ha
      rw [List.dropWhile_cons] at h
      simp only [bne_self_eq_false, Bool.false_eq_true, if_false] at h
      exact (List.cons.inj h).1.symm
    · rw [List.dropWhile_cons] at h
      simp only [bne_iff_ne, ne_eq, ha, not_false_eq_true, if_true] at h
      exact dropWhile_bne_head ch l c t h

/-- The last path component is a suffix of the path. -/
theorem lastSeg_suffix (p : List Char) : lastSeg p <:+ p := by
  refine ⟨(p.reverse.dropWhile (fun c => c != '/')).reverse, ?_⟩
  rw [lastSeg, ← List.reverse_append, List.takeWhile_append_dropWhile,
    List.reverse_reverse]

/-- If a path has extension `e`, then the path ends in `.` followed by `e`. -/
theorem ext_dot_suffix (p e : List Char) (h : extensionL p = some e) :
    ('.' :: e) <:+ p := by
  unfold extensionL at h
  by_cases hf : hasFileName p = true
  · rw [if_pos hf] at h
    unfold extCand at h
    split at h
    · cases h
    · rename_i c stemRev heq
      split at h
      · cases h
      · have hc : c = '.' := dropWhile_bne_head '.' _ c stemRev heq
        have he : e = ((lastSeg p).reverse.takeWhile (fun x => x != '.')).reverse :=
          (Option.some.inj h).symm
        have hsplit : (lastSeg p).reverse =
            (lastSeg p).reverse.takeWhile (fun x => x != '.') ++ (c :: stemRev) := by
          rw [← heq, List.takeWhile_append_dropWhile]
        have hseg : ('.' :: e) <:+ lastSeg p := by
          refine ⟨stemRev.reverse, ?_⟩
          have hrev := congrArg List.reverse hsplit
          rw [List.reverse_reverse, List.reverse_append] at hrev
          rw [hrev, he, hc]
          simp
        exact hseg.trans (lastSeg_suffix p)
  · rw [if_neg hf] at h
    cases h

/-- A path with an extension has a file name. -/
theorem extensionL_hasFileName (p e : List Char) (h : extensionL p = some e) :
    hasFileName p = true := by
  unfold extensionL at h
  by_cases hf : hasFileName p = true
  · exact hf
  · rw [if_neg hf] at h
    cases h

/-- Claim C8: for every out path with a file name, the fixup of src lines
148-151 appends the `pdf` extension when the path has none, and in every case
the resulting path — the file actually created — ends in `.pdf`. -/
theorem out_path_gets_pdf_ext (p : List Char) (hf : hasFileName p = true) :
    (extensionL p = none → fixOut p = p ++ '.' :: pdfExt) ∧
    ('.' :: pdfExt) <:+ fixOut p := by
  constructor
  · intro he
    unfold fixOut
    rw [if_neg (by rw [he]; simp)]
    unfold setExtensionL
    rw [if_pos hf, he]
  · unfold fixOut
    by_cases hpdf : extensionL p = some pdfExt
    · rw [if_pos hpdf]
      exact ext_dot_suffix p pdfExt hpdf
    · rw [if_neg hpdf]
      unfold setExtensionL
      rw [if_pos hf]
      exact List.suffix_append _ _

/-- Witness for `out_path_gets_pdf_ext` at the concrete out path `out.txt`. -/
theorem out_path_gets_pdf_ext_witness :
    hasFileName ['o', 'u', 't', '.', 't', 'x', 't'] = true ∧
    ('.' :: pdfExt) <:+ fixOut ['o', 'u', 't', '.', 't', 'x', 't'] :=
  ⟨by decide, (out_path_gets_pdf_ext ['o', 'u', 't', '.', 't', 'x', 't'] (by decide)).2⟩

/-- Claim C10: the extension comparison is exact (case-sensitive) equality
with the lowercase `pdf`; any path whose extension is a different string —
including uppercase variants such as `PDF` — has that extension replaced by
lowercase `pdf`. -/
theorem pdf_ext_replaced_case_sensitive (p e : List Char)
    (he : extensionL p = some e) (hne : e ≠ pdfExt) :
    fixOut p = p.take (p.length - (e.length + 1)) ++ '.' :: pdfExt := by
  unfold fixOut
  rw [if_neg (by rw [he]; intro hx; exact hne (Option.some.inj hx))]
  unfold setExtensionL
  rw [if_pos (extensionL_hasFileName p e he), he]

/-- Witness for `pdf_ext_replaced_case_sensitive`: the out path `a.PDF` is
rewritten to `a.pdf`. -/
theorem pdf_ext_replaced_case_sensitive_witness :
    extensionL ['a', '.', 'P', 'D', 'F'] = some ['P', 'D', 'F'] ∧
    fixOut ['a', '.', 'P', 'D', 'F'] = ['a', '.', 'p', 'd', 'f'] :=
  ⟨by decide,
    (pdf_ext_replaced_case_sensitive ['a', '.', 'P', 'D', 'F'] ['P', 'D', 'F']
        (by decide) (by decide)).trans (by decide)⟩

end ImgsToPdf
